import Mathlib

/-!
Shallow embedding of `src-tauri/src/process.rs` (agent-console): detection of
active "claude" sessions.  The Rust unit lists processes named exactly
"claude" by parsing the output of `ps -eo pid,comm`, resolves each PID's
current working directory (a single batched `lsof -a -d cwd -Fn -p <pids>`
call on macOS, a per-PID `/proc/<pid>/cwd` readlink on Linux), and returns a
result with a `supported` flag and a deduplicated set of paths.  External
facilities are modelled by an `Env` oracle: `psOutput` is the
(lossy-decoded) stdout of the `ps` invocation, or `none` when the invocation
itself fails; `lsofOutput` maps the comma-joined PID-list argument to the
stdout of the `lsof` invocation (or `none` on spawn failure); `procCwd`
maps a PID to the result of `read_link("/proc/<pid>/cwd")` (`none` on
failure), where an `OsPath` records the outcome of `.to_str()` (`none`
when the link target is not valid UTF-8).
-/

/-- Split a character list at every `'\n'`; the result always has one more
segment than there are newlines, so it is never empty. -/
def splitNewline : List Char → List (List Char)
  | [] => [[]]
  | c :: cs =>
    if c = '\n' then [] :: splitNewline cs
    else
      match splitNewline cs with
      | seg :: rest => (c :: seg) :: rest
      | [] => [[c]]

/-- Strip one trailing carriage return, as Rust's `str::lines` does for each
line terminated by a newline. -/
def stripCR (l : List Char) : List Char :=
  if l.getLast? = some '\x0d' then l.dropLast else l

/-- Helper for `rustLines`, acting on the segments between newlines: every
segment except the last was newline-terminated (so a trailing CR is
stripped); a final empty segment corresponds to a trailing newline and
yields no line. -/
def rustLinesAux : List (List Char) → List String
  | [] => []
  | [l] => if l = [] then [] else [String.mk l]
  | l :: ls => String.mk (stripCR l) :: rustLinesAux ls

/-- Rust's `str::lines`: split at every `'\n'`, dropping a final empty
segment and stripping a `'\r'` immediately preceding each `'\n'`. -/
def rustLines (s : String) : List String :=
  rustLinesAux (splitNewline s.data)

/-- Helper for `splitWhitespace`: `acc` holds the current in-progress token
in reverse. -/
def splitWsAux : List Char → List Char → List String
  | [], acc => if acc = [] then [] else [String.mk acc.reverse]
  | c :: cs, acc =>
    if c.isWhitespace then
      if acc = [] then splitWsAux cs []
      else String.mk acc.reverse :: splitWsAux cs []
    else splitWsAux cs (c :: acc)

/-- Rust's `str::split_whitespace`: the maximal non-empty runs of
non-whitespace characters. -/
def splitWhitespace (s : String) : List String :=
  splitWsAux s.data []

/-- Accumulate decimal digits into a number, failing at the first
non-digit. -/
def digitsToNat : List Char → Nat → Option Nat
  | [], acc => some acc
  | c :: cs, acc =>
    if c.isDigit then digitsToNat cs (acc * 10 + (c.toNat - 48)) else none

/-- Rust's `str::parse::<u32>` (as used via `.ok()`): an optional leading
`'+'`, then a non-empty run of decimal digits, rejecting values that do not
fit in 32 bits. -/
def parseU32 (s : String) : Option Nat :=
  let t :=
    match s.data with
    | '+' :: rest => rest
    | l => l
  match t with
  | [] => none
  | _ =>
    match digitsToNat t 0 with
    | some n => if n < 4294967296 then some n else none
    | none => none

/-- The per-line filter of `get_claude_pids`: split the line on whitespace;
when there are at least two fields and the second (the command name) is
exactly `"claude"`, parse the first field as a `u32`; otherwise the line
yields nothing. -/
def parse_ps_line (line : String) : Option Nat :=
  match splitWhitespace line with
  | p0 :: p1 :: _ => if p1 = "claude" then parseU32 p0 else none
  | _ => none

/-- Result of `read_link` on `/proc/<pid>/cwd`: an OS path whose `utf8`
field is the outcome of Rust's `Path::to_str` (`none` when the target is not
valid UTF-8). -/
structure OsPath where
  utf8 : Option String
deriving DecidableEq

/-- Oracle for the external facilities consumed by the detector.  Each field
records what the corresponding OS facility would return on this
invocation. -/
structure Env where
  psOutput : Option String
  lsofOutput : String → Option String
  procCwd : Nat → Option OsPath

/-- Embedding of `get_claude_pids`: run `ps -eo pid,comm`; on invocation
failure return the empty list, otherwise keep, for each output line, the PID
of a line whose command-name field is exactly `"claude"`. -/
def get_claude_pids (env : Env) : List Nat :=
  match env.psOutput with
  | none => []
  | some stdout => (rustLines stdout).filterMap parse_ps_line

/-- The single `lsof` argument built in `detect_macos_sessions`: the PIDs'
decimal representations joined by commas. -/
def pidListArg (pids : List Nat) : String :=
  String.intercalate "," (pids.map toString)

/-- Embedding of `line.strip_prefix('n')` from `detect_macos_sessions`:
remove a leading `'n'`, failing when the line does not start with one. -/
def stripN (line : String) : Option String :=
  match line.data with
  | 'n' :: rest => some (String.mk rest)
  | _ => none

/-- Embedding of `detect_macos_sessions`: when no PID was listed return the
empty set without touching `lsof`; otherwise issue one batched
`lsof -a -d cwd -Fn -p <pid,pid,...>` call and collect every output line
that starts with the marker `'n'`, the marker removed. -/
def detect_macos_sessions (env : Env) : Finset String :=
  let pids := get_claude_pids env
  if pids.isEmpty then ∅
  else
    match env.lsofOutput (pidListArg pids) with
    | none => ∅
    | some stdout => ((rustLines stdout).filterMap stripN).toFinset

/-- Embedding of `get_process_cwd_linux`: read the `/proc/<pid>/cwd`
symlink and convert the target to a string, failing when either step
fails. -/
def get_process_cwd_linux (env : Env) (pid : Nat) : Option String :=
  (env.procCwd pid).bind fun p => p.utf8

/-- Embedding of `detect_linux_sessions`: resolve each listed PID's working
directory independently and insert the successes into a set. -/
def detect_linux_sessions (env : Env) : Finset String :=
  ((get_claude_pids env).filterMap (get_process_cwd_linux env)).toFinset

/-- Compile-time target platform selecting the strategy in
`get_active_sessions`: the four `cfg` branches of the source. -/
inductive TargetOs
  | macos
  | linux
  | windows
  | other
deriving DecidableEq

/-- Embedding of `ActiveSessionsResult`: the `supported` flag and the set of
active project paths. -/
structure ActiveSessionsResult where
  supported : Bool
  active_paths : Finset String
deriving DecidableEq

/-- Embedding of `get_active_sessions`: macOS and Linux are supported and
run their detection strategy; Windows and every other platform report
`supported = false` with an empty path set. -/
def get_active_sessions (plat : TargetOs) (env : Env) : ActiveSessionsResult :=
  match plat with
  | .macos => { supported := true, active_paths := detect_macos_sessions env }
  | .linux => { supported := true, active_paths := detect_linux_sessions env }
  | .windows => { supported := false, active_paths := ∅ }
  | .other => { supported := false, active_paths := ∅ }

/-- The PID list produced by `get_claude_pids` depends only on the `ps`
output, not on the other oracles. -/
lemma get_claude_pids_eq_of_psOutput (env env' : Env)
    (h : env.psOutput = env'.psOutput) :
    get_claude_pids env = get_claude_pids env' := by
  unfold get_claude_pids
  rw [h]

/-- Membership in the Linux detection result: a path is returned exactly
when some listed PID resolves to it. -/
lemma mem_detect_linux_sessions (env : Env) (p : String) :
    p ∈ detect_linux_sessions env ↔
      ∃ pid ∈ get_claude_pids env, get_process_cwd_linux env pid = some p := by
  simp [detect_linux_sessions, List.mem_filterMap]

/-- Environment in which `ps` succeeds with empty output and every other
facility fails: no session is detected. -/
def envNoSessions : Env :=
  { psOutput := some ""
    lsofOutput := fun _ => none
    procCwd := fun _ => none }

/-- Claim C1 (counterexample): the biconditional
`supported = false ↔ active_paths = ∅` fails on Linux when `ps` reports no
"claude" process — the result is `supported = true` with an empty set. -/
theorem get_active_sessions_supported_iff_empty_refuted :
    ¬ (((get_active_sessions .linux envNoSessions).supported = false) ↔
       ((get_active_sessions .linux envNoSessions).active_paths = ∅)) := by
  decide

/-- Claim C1 (amended): on every platform and for every behaviour of the
external facilities, if `get_active_sessions` reports `supported = false`
then `active_paths` is empty (the converse direction fails, see the
counterexample). -/
theorem get_active_sessions_supported_false_implies_empty
    (plat : TargetOs) (env : Env)
    (h : (get_active_sessions plat env).supported = false) :
    (get_active_sessions plat env).active_paths = ∅ := by
  cases plat <;> simp_all [get_active_sessions]

/-- Witness for the amended C1 at the Windows platform. -/
theorem get_active_sessions_supported_false_implies_empty_witness :
    (get_active_sessions .windows envNoSessions).active_paths = ∅ :=
  get_active_sessions_supported_false_implies_empty .windows envNoSessions rfl

/-- Claim C2: on Windows and on any unlisted platform `get_active_sessions`
returns `supported = false` with an empty path set regardless of the
external facilities; and whenever `supported` is false, `active_paths` is
empty. -/
theorem get_active_sessions_unsupported_platform (plat : TargetOs) (env : Env) :
    ((plat = .windows ∨ plat = .other) →
      get_active_sessions plat env = { supported := false, active_paths := ∅ }) ∧
    ((get_active_sessions plat env).supported = false →
      (get_active_sessions plat env).active_paths = ∅) := by
  cases plat <;> simp [get_active_sessions]

/-- Witness for C2 on Windows with a concrete environment. -/
theorem get_active_sessions_unsupported_platform_witness :
    get_active_sessions .windows envNoSessions =
      { supported := false, active_paths := ∅ } :=
  (get_active_sessions_unsupported_platform .windows envNoSessions).1 (Or.inl rfl)

/-- Claim C3: `get_active_sessions` always returns a value; a failed `ps`
invocation contributes an empty PID list, and a failed `lsof` invocation
contributes an empty path set, rather than propagating a failure. -/
theorem get_active_sessions_total_and_absorbing (plat : TargetOs) (env : Env) :
    (∃ r : ActiveSessionsResult, get_active_sessions plat env = r) ∧
    (env.psOutput = none → get_claude_pids env = []) ∧
    (env.lsofOutput (pidListArg (get_claude_pids env)) = none →
      detect_macos_sessions env = ∅) := by
  refine ⟨⟨_, rfl⟩, ?_, ?_⟩
  · intro h
    simp [get_claude_pids, h]
  · intro h
    by_cases hp : (get_claude_pids env).isEmpty
    · simp [detect_macos_sessions, hp]
    · simp [detect_macos_sessions, hp, h]

/-- Environment in which every external facility fails outright. -/
def envAllFail : Env :=
  { psOutput := none
    lsofOutput := fun _ => none
    procCwd := fun _ => none }

/-- Witness for C3: with every facility failing, the PID list and the macOS
result are both empty. -/
theorem get_active_sessions_total_and_absorbing_witness :
    get_claude_pids envAllFail = [] ∧ detect_macos_sessions envAllFail = ∅ :=
  ⟨(get_active_sessions_total_and_absorbing .macos envAllFail).2.1 rfl,
   (get_active_sessions_total_and_absorbing .macos envAllFail).2.2 rfl⟩

/-- Claim C7: when no "claude" PID is listed, both resolvers return the
empty set, the overall result on the supported platforms is
`supported = true` with no paths, and the macOS resolver does not consult
the `lsof` facility at all (the result is the same for every `lsofOutput`
oracle). -/
theorem empty_pid_list_short_circuits (env : Env)
    (h : get_claude_pids env = []) :
    detect_macos_sessions env = ∅ ∧
    detect_linux_sessions env = ∅ ∧
    get_active_sessions .macos env = { supported := true, active_paths := ∅ } ∧
    get_active_sessions .linux env = { supported := true, active_paths := ∅ } ∧
    (∀ f, detect_macos_sessions { env with lsofOutput := f } = ∅) := by
  have hm : detect_macos_sessions env = ∅ := by
    simp [detect_macos_sessions, h]
  have hl : detect_linux_sessions env = ∅ := by
    simp [detect_linux_sessions, h]
  refine ⟨hm, hl, by simp [get_active_sessions, hm],
    by simp [get_active_sessions, hl], ?_⟩
  intro f
  have h' : get_claude_pids { env with lsofOutput := f } = [] := by
    rw [get_claude_pids_eq_of_psOutput { env with lsofOutput := f } env rfl]
    exact h
  simp [detect_macos_sessions, h']

/-- Witness for C7: empty `ps` output yields an empty macOS result. -/
theorem empty_pid_list_short_circuits_witness :
    detect_macos_sessions envNoSessions = ∅ :=
  (empty_pid_list_short_circuits envNoSessions (by decide)).1

/-- Claim C4 (counterexample): on the line `"abc claude"` the command-name
field is exactly `"claude"`, yet no PID is counted (the PID field is not
numeric), so "counted if and only if the command-name field is claude" fails
as stated. -/
theorem parse_ps_line_exact_match_iff_refuted :
    (splitWhitespace "abc claude").get? 1 = some "claude" ∧
    parse_ps_line "abc claude" = none := by
  decide

/-- Claim C4 (amended): a line contributes a PID if and only if its second
whitespace-separated field is exactly `"claude"` and its first field parses
as an unsigned 32-bit integer; in particular `"claude-helper"`,
`"notclaude"`, case variants and every other non-identical command name are
never counted. -/
theorem parse_ps_line_counted_iff (line : String) :
    (∃ n, parse_ps_line line = some n) ↔
      ((splitWhitespace line).get? 1 = some "claude" ∧
       ∃ p0, (splitWhitespace line).get? 0 = some p0 ∧ (parseU32 p0).isSome) := by
  unfold parse_ps_line
  rcases h : splitWhitespace line with _ | ⟨p0, _ | ⟨p1, tail⟩⟩
  · simp
  · simp
  · by_cases hc : p1 = "claude"
    · simp [hc, Option.isSome_iff_exists]
    · simp [hc]

/-- Claim C5: a malformed line (fewer than two fields, or a non-numeric PID
field) is skipped and every other line is still processed: the PID list over
an output containing the malformed line equals the PID list over the output
with that line removed. -/
theorem get_claude_pids_skips_malformed_line
    (env env' : Env) (s t bad : String) (pre post : List String)
    (hes : env.psOutput = some s) (het : env'.psOutput = some t)
    (hs : rustLines s = pre ++ bad :: post)
    (ht : rustLines t = pre ++ post)
    (hbad : (splitWhitespace bad).length < 2 ∨
      ∃ p0 rest, splitWhitespace bad = p0 :: rest ∧ parseU32 p0 = none) :
    get_claude_pids env = get_claude_pids env' := by
  have hnone : parse_ps_line bad = none := by
    unfold parse_ps_line
    rcases hbad with h | ⟨p0, rest, hsp, hp⟩
    · rcases hw : splitWhitespace bad with _ | ⟨a, _ | ⟨b, l⟩⟩
      · simp
      · simp
      · rw [hw] at h
        simp at h
        exact absurd h (by omega)
    · rw [hsp]
      rcases rest with _ | ⟨p1, rest'⟩
      · simp
      · simp [hp]
  simp [get_claude_pids, hes, het, hs, ht, List.filterMap_append,
    List.filterMap_cons, hnone]

/-- Environment whose `ps` output contains a malformed line between two
well-formed ones. -/
def envWithGarbage : Env :=
  { psOutput := some "12 claude\nab claude\n34 claude"
    lsofOutput := fun _ => none
    procCwd := fun _ => none }

/-- The same environment with the malformed `ps` line removed. -/
def envWithoutGarbage : Env :=
  { psOutput := some "12 claude\n34 claude"
    lsofOutput := fun _ => none
    procCwd := fun _ => none }

/-- Witness for C5 at a concrete three-line `ps` output whose middle line
has a non-numeric PID field. -/
theorem get_claude_pids_skips_malformed_line_witness :
    get_claude_pids envWithGarbage = get_claude_pids envWithoutGarbage :=
  get_claude_pids_skips_malformed_line envWithGarbage envWithoutGarbage
    "12 claude\nab claude\n34 claude" "12 claude\n34 claude"
    "ab claude" ["12 claude"] ["34 claude"] rfl rfl (by decide) (by decide)
    (Or.inr ⟨"ab", ["claude"], by decide, by decide⟩)

/-- Claim C6: both detection results are duplicate-free (every path occurs
at most once in the underlying multiset), and on Linux a path to which some
listed PID resolves occurs exactly once, no matter how many PIDs resolve to
it. -/
theorem detect_sessions_dedup (env : Env) (path : String) :
    (detect_linux_sessions env).val.count path ≤ 1 ∧
    (detect_macos_sessions env).val.count path ≤ 1 ∧
    (∀ pid, pid ∈ get_claude_pids env →
      get_process_cwd_linux env pid = some path →
      (detect_linux_sessions env).val.count path = 1) := by
  refine ⟨Multiset.nodup_iff_count_le_one.mp (detect_linux_sessions env).nodup path,
    Multiset.nodup_iff_count_le_one.mp (detect_macos_sessions env).nodup path, ?_⟩
  intro pid hmem hres
  have hp : path ∈ detect_linux_sessions env :=
    (mem_detect_linux_sessions env path).mpr ⟨pid, hmem, hres⟩
  exact Multiset.count_eq_one_of_mem (detect_linux_sessions env).nodup hp

/-- Environment of Scenario C: PIDs 100 and 101 are both named "claude" and
both resolve to the same working directory. -/
def envTwoSamePath : Env :=
  { psOutput := some "100 claude\n101 claude"
    lsofOutput := fun _ => none
    procCwd := fun _ => some { utf8 := some "/home/user/project" } }

/-- Witness for C6: with two PIDs resolving to `/home/user/project`, that
path occurs exactly once in the result. -/
theorem detect_sessions_dedup_witness :
    (detect_linux_sessions envTwoSamePath).val.count "/home/user/project" = 1 :=
  (detect_sessions_dedup envTwoSamePath "/home/user/project").2.2 100
    (by decide) rfl

/-- Characterisation of the marker filter of `detect_macos_sessions`: a
line yields the path `p` exactly when the line is the character `'n'`
followed immediately by `p`. -/
lemma stripN_eq_some (line p : String) :
    stripN line = some p ↔ line.data = 'n' :: p.data := by
  unfold stripN
  split
  · next rest heq =>
    rw [heq]
    constructor
    · intro h
      have h' : String.mk rest = p := by
        exact Option.some.inj h
      rw [← h']
    · intro h
      have h' : rest = p.data := by
        exact List.cons.inj h |>.2
      rw [h']
  · next hno =>
    constructor
    · intro h
      simp at h
    · intro h
      exact absurd h (by intro hc; exact hno p.data hc)

/-- Claim C8: on macOS with a non-empty PID list, the result is determined
by the single `lsof` call at the comma-joined decimal PID argument, and the
returned set is exactly the set of output lines that begin with the marker
`'n'`, the marker removed and the rest of the line taken verbatim. -/
theorem detect_macos_sessions_batched (env : Env) (out : String)
    (hne : get_claude_pids env ≠ [])
    (hout : env.lsofOutput (pidListArg (get_claude_pids env)) = some out) :
    (∀ p : String, p ∈ detect_macos_sessions env ↔
      ∃ line ∈ rustLines out, line.data = 'n' :: p.data) ∧
    (∀ env' : Env, env'.psOutput = env.psOutput →
      env'.lsofOutput (pidListArg (get_claude_pids env)) =
        env.lsofOutput (pidListArg (get_claude_pids env)) →
      detect_macos_sessions env' = detect_macos_sessions env) := by
  have hemp : (get_claude_pids env).isEmpty = false := by
    rcases h : get_claude_pids env with _ | ⟨a, l⟩
    · exact absurd h hne
    · rfl
  constructor
  · intro p
    simp [detect_macos_sessions, hemp, hout, List.mem_filterMap, stripN_eq_some]
  · intro env' hps hlsof
    have hpids := get_claude_pids_eq_of_psOutput env' env hps
    simp only [detect_macos_sessions, hpids, hlsof]

/-- Environment with two "claude" PIDs and an `lsof` oracle answering only
the batched query `"100,101"`. -/
def envBatch : Env :=
  { psOutput := some "100 claude\n101 claude"
    lsofOutput := fun a =>
      if a = "100,101" then
        some "p100\nfcwd\nn/home/user/project\np101\nfcwd\nn/home/user/project\n"
      else none
    procCwd := fun _ => none }

/-- Witness for C8 at the concrete batched `lsof` exchange of `envBatch`. -/
theorem detect_macos_sessions_batched_witness :
    "/home/user/project" ∈ detect_macos_sessions envBatch ↔
      ∃ line ∈ rustLines
          "p100\nfcwd\nn/home/user/project\np101\nfcwd\nn/home/user/project\n",
        line.data = 'n' :: "/home/user/project".data :=
  (detect_macos_sessions_batched envBatch
      "p100\nfcwd\nn/home/user/project\np101\nfcwd\nn/home/user/project\n"
      (by decide) (by decide)).1 "/home/user/project"

/-- Claim C9: the detection is deterministic — two invocations on the same
platform whose external facilities return identical data produce equal
results; no state outside the facilities' answers influences the value. -/
theorem get_active_sessions_deterministic (plat : TargetOs) (env env' : Env)
    (hps : env.psOutput = env'.psOutput)
    (hlsof : ∀ arg, env.lsofOutput arg = env'.lsofOutput arg)
    (hcwd : ∀ pid, env.procCwd pid = env'.procCwd pid) :
    get_active_sessions plat env = get_active_sessions plat env' := by
  have hpids := get_claude_pids_eq_of_psOutput env env' hps
  have hres : get_process_cwd_linux env = get_process_cwd_linux env' := by
    funext pid
    unfold get_process_cwd_linux
    rw [hcwd]
  have hlin : detect_linux_sessions env = detect_linux_sessions env' := by
    unfold detect_linux_sessions
    rw [hpids, hres]
  have hmac : detect_macos_sessions env = detect_macos_sessions env' := by
    simp only [detect_macos_sessions]
    rw [hpids, hlsof]
  cases plat <;> simp [get_active_sessions, hlin, hmac]

/-- Witness for C9: two pointwise-identical environments give equal results
on Linux. -/
theorem get_active_sessions_deterministic_witness :
    get_active_sessions .linux envTwoSamePath =
      get_active_sessions .linux envTwoSamePath :=
  get_active_sessions_deterministic .linux envTwoSamePath envTwoSamePath
    rfl (fun _ => rfl) (fun _ => rfl)

/-- Claim C10: on Linux, a PID whose `/proc/<pid>/cwd` link resolves to a
non-UTF-8 path is omitted exactly as if the resolution had failed — the
per-PID lookup yields nothing, the overall result equals the result of an
environment in which that PID's resolution fails outright — and every path
in the returned set stems from a successful UTF-8 conversion. -/
theorem non_utf8_cwd_omitted (env : Env) (pid : Nat) (pb : OsPath)
    (hres : env.procCwd pid = some pb) (hutf8 : pb.utf8 = none) :
    get_process_cwd_linux env pid = none ∧
    detect_linux_sessions env =
      detect_linux_sessions
        { env with procCwd := fun q => if q = pid then none else env.procCwd q } ∧
    (∀ p ∈ detect_linux_sessions env,
      ∃ q pb', env.procCwd q = some pb' ∧ pb'.utf8 = some p) := by
  have h1 : get_process_cwd_linux env pid = none := by
    simp [get_process_cwd_linux, hres, hutf8]
  refine ⟨h1, ?_, ?_⟩
  · have hfun : get_process_cwd_linux env =
        get_process_cwd_linux
          { env with procCwd := fun q => if q = pid then none else env.procCwd q } := by
      funext q
      by_cases hq : q = pid
      · subst hq
        simp [get_process_cwd_linux, hres, hutf8]
      · simp [get_process_cwd_linux, hq]
    have hpids : get_claude_pids env =
        get_claude_pids
          { env with procCwd := fun q => if q = pid then none else env.procCwd q } :=
      get_claude_pids_eq_of_psOutput _ _ rfl
    unfold detect_linux_sessions
    rw [← hfun, ← hpids]
  · intro p hp
    obtain ⟨q, hq, hres'⟩ := (mem_detect_linux_sessions env p).mp hp
    unfold get_process_cwd_linux at hres'
    rcases hpc : env.procCwd q with _ | pb'
    · rw [hpc] at hres'
      simp at hres'
    · rw [hpc] at hres'
      simp at hres'
      exact ⟨q, pb', hpc, hres'⟩

/-- Environment with one "claude" PID whose working-directory link resolves
to a non-UTF-8 path. -/
def envNonUtf8 : Env :=
  { psOutput := some "7 claude"
    lsofOutput := fun _ => none
    procCwd := fun _ => some { utf8 := none } }

/-- Witness for C10 at PID 7 with a non-UTF-8 link target. -/
theorem non_utf8_cwd_omitted_witness :
    get_process_cwd_linux envNonUtf8 7 = none :=
  (non_utf8_cwd_omitted envNonUtf8 7 { utf8 := none } rfl rfl).1

/-- Sanity lemmas pinning the behaviour of the text-level helpers on the
concrete shapes that appear in `ps` and `lsof` output. -/
lemma text_helpers_sanity :
    rustLines "a\nb\n" = ["a", "b"] ∧
    rustLines "" = [] ∧
    rustLines "a\r\nb" = ["a", "b"] ∧
    splitWhitespace "  100   claude " = ["100", "claude"] ∧
    parse_ps_line " 100 claude" = some 100 ∧
    parse_ps_line " 100 claude-helper" = none ∧
    parse_ps_line " 100 Claude" = none ∧
    parse_ps_line " 100 notclaude" = none ∧
    pidListArg [100, 101] = "100,101" ∧
    stripN "n/home/a" = some "/home/a" := by
  refine ⟨by decide, by decide, by decide, by decide, by decide, by decide,
    by decide, by decide, by decide, rfl⟩
